import Mathlib

/-!
Shallow embedding of the compressible-flow nozzle simulation (`src/script.js`)
over exact rational arithmetic, together with theorems settling the spec
claims about it.

Conventions:
  * JS numbers are modelled as `ℚ`; `Math.PI` is the double-precision
    constant the runtime uses, embedded as the exact rational value of that
    double (it cancels in every ratio the code forms, so its exact value
    never matters to a claim).
  * Globals read by the code (`soundSpeed`, `initialVelocity`, `timeScale`,
    `canvas.width`, `bottomWall`) are passed as explicit parameters.
  * `performance.now()` is passed in as an explicit `now : ℚ` argument.
  * Fallible arithmetic (division) is additionally modelled by a checked
    variant returning `Option ℚ`, used for the totality claim.
-/

/-- `PHYSICAL_WIDTH_METERS = 5` (script.js line 6). -/
def PHYSICAL_WIDTH_METERS : ℚ := 5

/-- The double-precision value of `Math.PI`, as an exact rational. -/
def piQ : ℚ := 884279719003555 / 281474976710656

/-- `metersToPixels` (script.js lines 21-23): `(meters / PHYSICAL_WIDTH_METERS) * canvas.width`.
The canvas width `W` is passed explicitly. -/
def metersToPixels (W meters : ℚ) : ℚ :=
  meters / PHYSICAL_WIDTH_METERS * W

/-- `pixelsToMeters` (script.js lines 25-27): `(pixels / canvas.width) * PHYSICAL_WIDTH_METERS`. -/
def pixelsToMeters (W pixels : ℚ) : ℚ :=
  pixels / W * PHYSICAL_WIDTH_METERS

/-- The area-level core of `calculateVelocity` (script.js lines 79-92): given the
two cross-sectional areas `A1`, `A2`, the current velocity `V1`, the global
`soundSpeed` `c` and the global `initialVelocity` `v0`, compute the next
velocity.  This is the spec's `FlowModel.nextVelocity` pure function. -/
def calcVelocityFromAreas (A1 A2 V1 c v0 : ℚ) : ℚ :=
  let dA := A2 - A1
  let dA_A := dA / A1
  let M := V1 / c
  let one_minus_M1 := 1 - M * M
  -- Near Mach 1, avoid division by zero (lines 87-89)
  if |one_minus_M1| < 0.01 then v0
  else
    let dV := -dA_A * V1 / one_minus_M1
    V1 + dV * 0.05

/-- `calculateVelocity` (script.js lines 70-93).  `bottomYAt` is the global
`bottomWall.getYAtX`, `W` the canvas width, `c` the global `soundSpeed`,
`v0` the global `initialVelocity`.  The parameters `x1` and `y1` are unused,
exactly as in the source.  Lines 72-77 convert the passed bottom-wall height
`y2` and the looked-up height `bottomWall.getYAtX(x2)` to meters and form
circular areas `r * r * π`; the rest is `calcVelocityFromAreas`. -/
def calculateVelocity (bottomYAt : ℚ → ℚ) (W c v0 : ℚ) (x1 x2 y1 y2 V1 : ℚ) : ℚ :=
  let y2_meters := pixelsToMeters W y2
  let y2_next_meters := pixelsToMeters W (bottomYAt x2)
  let A1 := y2_meters * y2_meters * piQ
  let A2 := y2_next_meters * y2_next_meters * piQ
  calcVelocityFromAreas A1 A2 V1 c v0

/-- Division that records division-by-zero instead of defaulting to `0`. -/
def qdiv (a b : ℚ) : Option ℚ :=
  if b = 0 then none else some (a / b)

/-- Checked variant of `calculateVelocity`: every division the JS source
performs is guarded, so the result is `some _` exactly when no division by
zero occurs on the path taken. -/
def calculateVelocityChecked (bottomYAt : ℚ → ℚ) (W c v0 : ℚ)
    (x1 x2 y1 y2 V1 : ℚ) : Option ℚ := do
  let y2_meters := (← qdiv y2 W) * PHYSICAL_WIDTH_METERS
  let y2_next_meters := (← qdiv (bottomYAt x2) W) * PHYSICAL_WIDTH_METERS
  let A1 := y2_meters * y2_meters * piQ
  let A2 := y2_next_meters * y2_next_meters * piQ
  let dA_A ← qdiv (A2 - A1) A1
  let M ← qdiv V1 c
  let one_minus_M1 := 1 - M * M
  if |one_minus_M1| < 0.01 then
    pure v0
  else do
    let dV ← qdiv (-dA_A * V1) one_minus_M1
    pure (V1 + dV * 0.05)

/-! ### Rolling buffers and the wall profile (`Spline`) -/

/-- The last `n` elements of a list, in order — JS `Array.slice(-n)`
(and the content kept by the rolling-buffer eviction). -/
def lastN (n : ℕ) (l : List α) : List α :=
  l.drop (l.length - n)

/-- One `recordVelocity` buffer step (script.js lines 160-165): push the
sample, then `shift` the oldest entry once the buffer exceeds 50 entries. -/
def push50 (l : List ℚ) (v : ℚ) : List ℚ :=
  let l' := l ++ [v]
  if 50 < l'.length then l'.tail else l'

/-- The closest-control-point scan of `recordVelocity` (script.js lines
146-156): start with index `0` and distance `|points[0].x - x|` and take each
later point only on a strictly smaller distance.  `i` is the index of the next
element of `rest` in the original list. -/
def findClosestAux (x : ℚ) : List ℚ → ℕ → ℕ → ℚ → ℕ × ℚ
  | [], _, bestI, bestD => (bestI, bestD)
  | p :: rest, i, bestI, bestD =>
    if |p - x| < bestD then findClosestAux x rest (i + 1) i |p - x|
    else findClosestAux x rest (i + 1) bestI bestD

/-- Closest control point among `p0 :: rest` to position `x`:
`(closestIndex, closestDist)`. -/
def findClosest (x p0 : ℚ) (rest : List ℚ) : ℕ × ℚ :=
  findClosestAux x rest 1 0 |p0 - x|

/-- `Spline.recordVelocity` (script.js lines 144-167) acting on the buffer
state: `xs` are the control points' x coordinates, `bufs` the per-point
rolling buffers.  Only records when the closest point is nearer than 50. -/
def recordVelocityBufs (xs : List ℚ) (bufs : List (List ℚ)) (x v : ℚ) :
    List (List ℚ) :=
  match xs with
  | [] => bufs
  | p0 :: rest =>
    let c := findClosest x p0 rest
    if c.2 < 50 then bufs.set c.1 (push50 (bufs.getD c.1 []) v) else bufs

/-- A wall profile (the `Spline` class): sorted control points, the interior
cubic-spline interpolant (computed by the external `numeric.spline` library,
hence abstract here), and the per-point velocity buffers. -/
structure Wall where
  points : List (ℚ × ℚ)
  interp : ℚ → ℚ
  bufs : List (List ℚ)

/-- `Spline.getYAtX` (script.js lines 169-181): clamp to the first point's
height at or before its x, to the last point's height at or after its x, and
use the cubic-spline interpolant in between. -/
def Wall.getYAtX (w : Wall) (x : ℚ) : ℚ :=
  match w.points with
  | [] => w.interp x
  | p :: rest =>
    let last := (p :: rest).getLast (List.cons_ne_nil p rest)
    if x ≤ p.1 then p.2
    else if last.1 ≤ x then last.2
    else w.interp x

/-- `Spline.recordVelocity` as a `Wall` operation. -/
def Wall.recordVelocity (w : Wall) (x v : ℚ) : Wall :=
  { w with bufs := recordVelocityBufs (w.points.map Prod.fst) w.bufs x v }

/-! ### Shock tracking -/

/-- `SHOCK_WINDOW = 100` (script.js line 14). -/
def SHOCK_WINDOW : ℕ := 100

/-- `SHOCK_THRESHOLD = 1` (script.js line 15). -/
def SHOCK_THRESHOLD : ℕ := 1

/-- `SHOCK_LIFETIME = 300` milliseconds (script.js line 17). -/
def SHOCK_LIFETIME : ℚ := 300

/-- `SHOCK_DISTANCE = metersToPixels(0.1)` (script.js line 16), for canvas
width `W`. -/
def SHOCK_DISTANCE (W : ℚ) : ℚ := metersToPixels W 0.1

/-- A Mach-transition event: `type` is `1` for a supersonic entry and `-1`
for a subsonic entry (script.js lines 358-361). -/
structure SEvent where
  type : ℤ
  timestamp : ℚ
  deriving DecidableEq, Repr

/-- The bucket key: `Math.round(x / D) * D` (script.js line 349).
JS `Math.round` rounds half-up, which is Mathlib `round` on `ℚ`. -/
def bucketKey (D x : ℚ) : ℚ := (round (x / D) : ℤ) * D

/-- Inserting one transition into a bucket's event list (script.js lines
357-368): push `{type, timestamp: now}`, keep only events younger than
`SHOCK_LIFETIME`, and keep only the last `SHOCK_WINDOW` of those.
The two `performance.now()` calls of the source are modelled as one `now`. -/
def insertEvent (now : ℚ) (ty : ℤ) (ts : List SEvent) : List SEvent :=
  lastN SHOCK_WINDOW
    ((ts ++ [SEvent.mk ty now]).filter fun t => now - t.timestamp < SHOCK_LIFETIME)

/-- The survival test of the prune pass (script.js lines 455-460): a bucket
is kept iff it is nonempty and its newest (last) event is younger than
`SHOCK_LIFETIME`. -/
def bucketSurvives (now : ℚ) (ts : List SEvent) : Bool :=
  match ts.getLast? with
  | none => false
  | some e => decide (now - e.timestamp < SHOCK_LIFETIME)

/-- The prune pass over the whole map (script.js lines 454-460), with the
`Map` modelled as an insertion-ordered association list. -/
def pruneExpired (now : ℚ) (buckets : List (ℚ × List SEvent)) :
    List (ℚ × List SEvent) :=
  buckets.filter fun b => bucketSurvives now b.2

/-- Count of supersonic-entry events in a bucket (script.js line 464). -/
def superCount (ts : List SEvent) : ℕ :=
  (ts.filter fun t => t.type = 1).length

/-- Count of subsonic-entry events in a bucket (script.js line 465). -/
def subCount (ts : List SEvent) : ℕ :=
  (ts.filter fun t => t.type = -1).length

/-- The marker's color category. -/
inductive ShockColor
  | supersonicEntry
  | subsonicEntry
  deriving DecidableEq, Repr

/-- The color the marker loop draws a bucket with (script.js lines 481-483):
red (supersonic entry) iff `superCount >= SHOCK_THRESHOLD`, blue (subsonic
entry) otherwise. -/
def markerColor (ts : List SEvent) : ShockColor :=
  if SHOCK_THRESHOLD ≤ superCount ts then .supersonicEntry else .subsonicEntry

/-- For comparison with the code, the color rule as the spec words it:
whichever direction has the larger event count, ties favoring
supersonic entry. -/
def dominantColor (ts : List SEvent) : ShockColor :=
  if subCount ts > superCount ts then .subsonicEntry else .supersonicEntry

/-- Update an insertion-ordered association list at key `k` with `f`,
creating the entry from `f []` when absent — the `Map` get-or-create and
`set` of script.js lines 352-368. -/
def updateAssoc (k : ℚ) (f : List SEvent → List SEvent) :
    List (ℚ × List SEvent) → List (ℚ × List SEvent)
  | [] => [(k, f [])]
  | (k', v) :: rest =>
    if k' = k then (k', f v) :: rest else (k', v) :: updateAssoc k f rest

/-- Reporting one Mach transition at position `x` (script.js lines 348-368):
round the position to the bucket key and insert the event there. -/
def reportTransition (W now : ℚ) (ty : ℤ) (x : ℚ)
    (m : List (ℚ × List SEvent)) : List (ℚ × List SEvent) :=
  updateAssoc (bucketKey (SHOCK_DISTANCE W) x) (insertEvent now ty) m

/-! ### Particles -/

/-- The globals read by `Particle` and `calculateVelocity`
(script.js lines 30-32 and the canvas). -/
structure Env where
  soundSpeed : ℚ
  initialVelocity : ℚ
  timeScale : ℚ
  canvasWidth : ℚ

/-- A flow tracer (the `Particle` class fields).  `colorSupersonic` models
the red-vs-white color string. -/
structure Particle where
  x : ℚ
  y : ℚ
  normalizedY : ℚ
  speedX : ℚ
  size : ℚ
  opacity : ℚ
  colorSupersonic : Bool

/-- `Particle.updateColor` (script.js lines 316-326): red iff the local Mach
number exceeds 1. -/
def Particle.updateColor (env : Env) (p : Particle) : Particle :=
  { p with colorSupersonic := decide (1 < p.speedX / env.soundSpeed) }

/-- `Particle.setupVelocity` (script.js lines 310-314).  `rOp` stands for the
`Math.random()` draw for the opacity. -/
def Particle.setupVelocity (env : Env) (rOp : ℚ) (p : Particle) : Particle :=
  Particle.updateColor env
    { p with speedX := env.initialVelocity, opacity := rOp * 0.5 + 0.5 }

/-- `Particle.reset` on an existing particle (script.js lines 299-308):
fresh random size, `x := 0`, and since an existing particle already owns a
`normalizedY` property, the `hasOwnProperty` guard keeps it unchanged.
`rSize` stands for the `Math.random()` draw for the size. -/
def Particle.reset (env : Env) (rSize rOp : ℚ) (p : Particle) : Particle :=
  Particle.setupVelocity env rOp { p with size := rSize * 2 + 1, x := 0 }

/-- `Particle.update` in the walls-present branch (script.js lines 328-392):
derive the lateral position from the walls and `normalizedY`, update the
velocity through `calculateVelocity` with the 10 cm look-ahead, report a
Mach transition to the shock map if the regime flipped, record the velocity
on both walls, update the color, and advance `x`.  Returns the updated
particle, walls and shock map. -/
def Particle.update (env : Env) (top bottom : Wall) (now : ℚ)
    (shock : List (ℚ × List SEvent)) (p : Particle) :
    Particle × Wall × Wall × List (ℚ × List SEvent) :=
  let lookAheadPixels := metersToPixels env.canvasWidth 0.1
  let topY := top.getYAtX p.x
  let bottomY := bottom.getYAtX p.x
  let y := topY + p.normalizedY * (bottomY - topY)
  let prevMach := p.speedX / env.soundSpeed
  let speedX := calculateVelocity bottom.getYAtX env.canvasWidth
    env.soundSpeed env.initialVelocity p.x (p.x + lookAheadPixels) topY bottomY p.speedX
  let newMach := speedX / env.soundSpeed
  let shock' :=
    if (prevMach < 1 ∧ 1 ≤ newMach) ∨ (1 ≤ prevMach ∧ newMach < 1) then
      reportTransition env.canvasWidth now (if 1 ≤ newMach then 1 else -1) p.x shock
    else shock
  let dt := 1 / 60 * env.timeScale
  let dxPixels := metersToPixels env.canvasWidth (speedX * dt)
  let top' := top.recordVelocity p.x speedX
  let bottom' := bottom.recordVelocity p.x speedX
  let p' := Particle.updateColor env { p with y := y, speedX := speedX }
  ({ p' with x := p'.x + dxPixels }, top', bottom', shock')



/-! ## Helper lemmas -/

/-- The two views of the squared Mach term agree. -/
lemma mach_sq (V1 c : ℚ) : V1 / c * (V1 / c) = (V1 / c) ^ 2 := (pow_two _).symm

/-! ## Claims about the flow model -/

/-- **C4.** For every `currentVelocity` with `|1 - (currentVelocity / soundSpeed)²| < 0.01`,
the velocity update returns exactly the configured injection velocity, for all
area inputs (all wall, canvas and position parameters). -/
theorem c4_near_sonic_guard (bottomYAt : ℚ → ℚ) (W c v0 x1 x2 y1 y2 V1 : ℚ)
    (h : |1 - (V1 / c) ^ 2| < 0.01) :
    calculateVelocity bottomYAt W c v0 x1 x2 y1 y2 V1 = v0 := by
  rw [← mach_sq] at h
  simp only [calculateVelocity, calcVelocityFromAreas]
  rw [if_pos h]

/-- **C4 witness.** At `soundSpeed = currentVelocity = 343` the guard fires and
the injection velocity `100` is returned. -/
theorem c4_near_sonic_guard_witness :
    calculateVelocity (fun _ => 1) 1000 343 100 0 7 0 1 343 = 100 :=
  c4_near_sonic_guard (fun _ => 1) 1000 343 100 0 7 0 1 343 (by norm_num)

/-- **C3.** Away from the near-sonic guard (`|1 - M²| ≥ 0.01`), the velocity
update returns
`V1 + 0.05 * (-dA_A * V1 / (1 - M²))` with `dA_A = (A2 - A1) / A1`, the areas
being `π` times the square of the bottom wall's height (in meters) at the
current position and at the look-ahead position respectively; and in the 1:2
area-ratio scenario at `V1 = 100`, `c = 343` the result is within `0.1` of
`94.5`. -/
theorem c3_update_formula :
    (∀ (bottomYAt : ℚ → ℚ) (W c v0 x1 x2 y1 V1 : ℚ),
      0.01 ≤ |1 - (V1 / c) ^ 2| →
      calculateVelocity bottomYAt W c v0 x1 x2 y1 (bottomYAt x1) V1 =
        V1 + 0.05 *
          (-((pixelsToMeters W (bottomYAt x2) ^ 2 * piQ -
              pixelsToMeters W (bottomYAt x1) ^ 2 * piQ) /
             (pixelsToMeters W (bottomYAt x1) ^ 2 * piQ)) *
            V1 / (1 - (V1 / c) ^ 2))) ∧
    (∀ A1 v0 : ℚ, 0 < A1 →
      |calcVelocityFromAreas A1 (2 * A1) 100 343 v0 - 94.5| ≤ 0.1) := by
  constructor
  · intro bottomYAt W c v0 x1 x2 y1 V1 h
    rw [← mach_sq] at h
    simp only [calculateVelocity, calcVelocityFromAreas]
    rw [if_neg (not_lt.mpr h)]
    rw [mach_sq]
    ring
  · intro A1 v0 hA
    have h1 : (2 * A1 - A1) / A1 = 1 := by
      rw [show 2 * A1 - A1 = A1 by ring]
      exact div_self (ne_of_gt hA)
    simp only [calcVelocityFromAreas, h1]
    rw [if_neg (by rw [abs_of_pos] <;> norm_num)]
    rw [abs_le]
    constructor <;> norm_num

/-- **C3 witness.** Both parts of the formula claim instantiated: a straight
bottom wall of height 1 at canvas width 1000, `V1 = 100`, `c = 343`; and the
1:2 scenario at `A1 = 1`. -/
theorem c3_update_formula_witness :
    calculateVelocity (fun _ => 1) 1000 343 77 0 7 0 1 100 =
      100 + 0.05 *
        (-((pixelsToMeters 1000 1 ^ 2 * piQ - pixelsToMeters 1000 1 ^ 2 * piQ) /
           (pixelsToMeters 1000 1 ^ 2 * piQ)) * 100 / (1 - ((100 : ℚ) / 343) ^ 2)) ∧
    |calcVelocityFromAreas 1 (2 * 1) 100 343 77 - 94.5| ≤ 0.1 :=
  ⟨c3_update_formula.1 (fun _ => 1) 1000 343 77 0 7 0 100
      (by rw [abs_of_pos] <;> norm_num),
    c3_update_formula.2 1 77 (by norm_num)⟩

/-- **C5 counterexample.** At `currentVelocity = 0` (subsonic: `0 / 343 < 1`)
and a diverging duct `A1 = 1 < 2 = A2`, the update returns `0 = V1`, which is
not strictly less than `V1`; the claim as stated is false. -/
theorem c5_counterexample :
    (0 : ℚ) / 343 < 1 ∧ (1 : ℚ) < 2 ∧
      calcVelocityFromAreas 1 2 0 343 100 = 0 ∧
      ¬ calcVelocityFromAreas 1 2 0 343 100 < 0 := by
  refine ⟨by norm_num, by norm_num, ?_, ?_⟩ <;>
    · simp only [calcVelocityFromAreas]
      norm_num

/-- **C5 (amended).** For positive subsonic velocity (`0 < V1 < c`), positive
upstream area, and outside the near-sonic guard band (`0.01 ≤ 1 - M²`): a
diverging duct strictly decreases the velocity and a converging duct strictly
increases it. -/
theorem c5_subsonic_monotonicity (A1 A2 V1 c v0 : ℚ)
    (hA1 : 0 < A1) (hV : 0 < V1) (hVc : V1 < c)
    (hM : 0.01 ≤ 1 - (V1 / c) ^ 2) :
    (A1 < A2 → calcVelocityFromAreas A1 A2 V1 c v0 < V1) ∧
    (A2 < A1 → V1 < calcVelocityFromAreas A1 A2 V1 c v0) := by
  rw [← mach_sq] at hM
  have hom : 0 < 1 - V1 / c * (V1 / c) := by linarith
  have hguard : ¬ |1 - V1 / c * (V1 / c)| < 0.01 := by
    rw [abs_of_pos hom]; exact not_lt.mpr hM
  constructor
  · intro hdiv
    simp only [calcVelocityFromAreas]
    rw [if_neg hguard]
    have hd : 0 < (A2 - A1) / A1 := div_pos (by linarith) hA1
    have h1 : 0 < (A2 - A1) / A1 * V1 / (1 - V1 / c * (V1 / c)) * 0.05 :=
      mul_pos (div_pos (mul_pos hd hV) hom) (by norm_num)
    have h2 : -((A2 - A1) / A1) * V1 / (1 - V1 / c * (V1 / c)) * 0.05 =
        -((A2 - A1) / A1 * V1 / (1 - V1 / c * (V1 / c)) * 0.05) := by ring
    rw [h2]
    linarith
  · intro hconv
    simp only [calcVelocityFromAreas]
    rw [if_neg hguard]
    have hd : 0 < (A1 - A2) / A1 := div_pos (by linarith) hA1
    have h1 : 0 < (A1 - A2) / A1 * V1 / (1 - V1 / c * (V1 / c)) * 0.05 :=
      mul_pos (div_pos (mul_pos hd hV) hom) (by norm_num)
    have h2 : -((A2 - A1) / A1) * V1 / (1 - V1 / c * (V1 / c)) * 0.05 =
        (A1 - A2) / A1 * V1 / (1 - V1 / c * (V1 / c)) * 0.05 := by ring
    rw [h2]
    linarith

/-- **C5 witness.** `A1 = 1`, `V1 = 100`, `c = 343`: the diverging duct
`A2 = 2` strictly slows the flow and the converging duct `A2 = 1/2` strictly
speeds it up. -/
theorem c5_subsonic_monotonicity_witness :
    calcVelocityFromAreas 1 2 100 343 5 < 100 ∧
      100 < calcVelocityFromAreas 1 (1 / 2) 100 343 5 :=
  ⟨(c5_subsonic_monotonicity 1 2 100 343 5 (by norm_num) (by norm_num)
      (by norm_num) (by norm_num)).1 (by norm_num),
    (c5_subsonic_monotonicity 1 (1 / 2) 100 343 5 (by norm_num) (by norm_num)
      (by norm_num) (by norm_num)).2 (by norm_num)⟩

/-- **C10.** With a well-formed environment (nonzero canvas width and sound
speed) and a nonzero bottom-wall height at the upstream position (so nonzero
upstream area), every division of `calculateVelocity` has a nonzero divisor —
the `(1 - M²)` division is only reached under the `|1 - M²| ≥ 0.01` guard —
so the checked computation succeeds and agrees with the total one. -/
theorem c10_no_division_by_zero (bottomYAt : ℚ → ℚ) (W c v0 x1 x2 y1 y2 V1 : ℚ)
    (hW : W ≠ 0) (hc : c ≠ 0) (hy : y2 ≠ 0) :
    calculateVelocityChecked bottomYAt W c v0 x1 x2 y1 y2 V1 =
      some (calculateVelocity bottomYAt W c v0 x1 x2 y1 y2 V1) := by
  have hA1 : y2 / W * PHYSICAL_WIDTH_METERS * (y2 / W * PHYSICAL_WIDTH_METERS) * piQ ≠ 0 := by
    have hm : y2 / W * PHYSICAL_WIDTH_METERS ≠ 0 :=
      mul_ne_zero (div_ne_zero hy hW) (by norm_num [PHYSICAL_WIDTH_METERS])
    exact mul_ne_zero (mul_ne_zero hm hm) (by norm_num [piQ])
  simp only [calculateVelocityChecked, calculateVelocity, calcVelocityFromAreas,
    pixelsToMeters, qdiv, hW, hc, hA1, if_false, Option.bind_eq_bind,
    Option.some_bind, if_neg]
  by_cases hM : |1 - V1 / c * (V1 / c)| < 0.01
  · rw [if_pos hM, if_pos hM]
    rfl
  · have hom : 1 - V1 / c * (V1 / c) ≠ 0 := by
      intro h0
      exact hM (by rw [h0, abs_zero]; norm_num)
    rw [if_neg hM, if_neg hM]
    simp [qdiv, hom]

/-- **C10 witness.** A concrete well-formed input: straight wall of height 1,
canvas width 1000, `c = 343`, `y2 = 1`, `V1 = 100`. -/
theorem c10_no_division_by_zero_witness :
    calculateVelocityChecked (fun _ => 1) 1000 343 100 0 7 0 1 100 =
      some (calculateVelocity (fun _ => 1) 1000 343 100 0 7 0 1 100) :=
  c10_no_division_by_zero (fun _ => 1) 1000 343 100 0 7 0 1 100
    (by norm_num) (by norm_num) (by norm_num)

/-! ## Claims about the wall profile -/

/-- In a strictly x-sorted nonempty chain of control points, the head's x is
strictly below the last point's x. -/
lemma head_lt_getLast :
    ∀ (rest : List (ℚ × ℚ)) (p : ℚ × ℚ), rest ≠ [] →
      List.Chain' (fun a b : ℚ × ℚ => a.1 < b.1) (p :: rest) →
      p.1 < ((p :: rest).getLast (List.cons_ne_nil p rest)).1
  | [], _, hne, _ => absurd rfl hne
  | q :: rest', p, _, hc => by
    rw [List.chain'_cons] at hc
    rw [List.getLast_cons (List.cons_ne_nil q rest')]
    cases rest' with
    | nil => exact hc.1
    | cons r rest'' =>
      exact hc.1.trans (head_lt_getLast (r :: rest'') q (List.cons_ne_nil r rest'') hc.2)

/-- **C7.** For a wall profile with at least two control points, strictly
sorted by downstream coordinate (the documented invariant), `getYAtX` clamps:
at or before the first point's x it returns exactly the first point's height,
and at or after the last point's x it returns exactly the last point's
height. -/
theorem c7_clamped_ends (w : Wall) (p : ℚ × ℚ) (rest : List (ℚ × ℚ)) (x : ℚ)
    (hpts : w.points = p :: rest) (h2 : rest ≠ [])
    (hsort : List.Chain' (fun a b : ℚ × ℚ => a.1 < b.1) w.points) :
    (x ≤ p.1 → w.getYAtX x = p.2) ∧
    (((p :: rest).getLast (List.cons_ne_nil p rest)).1 ≤ x →
      w.getYAtX x = ((p :: rest).getLast (List.cons_ne_nil p rest)).2) := by
  rw [hpts] at hsort
  have hlt : p.1 < ((p :: rest).getLast (List.cons_ne_nil p rest)).1 :=
    head_lt_getLast rest p h2 hsort
  constructor
  · intro hx
    simp only [Wall.getYAtX, hpts]
    rw [if_pos hx]
  · intro hx
    simp only [Wall.getYAtX, hpts]
    rw [if_neg (not_le.mpr (lt_of_lt_of_le hlt hx)), if_pos hx]

/-- **C7 witness.** The wall with control points `(0, 1)` and `(10, 3)` clamps
to height `1` at `x = -5` and to height `3` at `x = 99`. -/
theorem c7_clamped_ends_witness :
    Wall.getYAtX ⟨[(0, 1), (10, 3)], fun _ => 0, []⟩ (-5) = 1 ∧
    Wall.getYAtX ⟨[(0, 1), (10, 3)], fun _ => 0, []⟩ 99 = 3 :=
  ⟨(c7_clamped_ends ⟨[(0, 1), (10, 3)], fun _ => 0, []⟩ (0, 1) [(10, 3)] (-5)
      rfl (by simp) (by simp [List.chain'_pair])).1 (by norm_num),
    (c7_clamped_ends ⟨[(0, 1), (10, 3)], fun _ => 0, []⟩ (0, 1) [(10, 3)] 99
      rfl (by simp) (by simp [List.chain'_pair])).2 (by norm_num [List.getLast])⟩

/-- One buffer step keeps the length at most 50. -/
lemma push50_length_le (l : List ℚ) (v : ℚ) (h : l.length ≤ 50) :
    (push50 l v).length ≤ 50 := by
  simp only [push50]
  split
  · simpa [List.length_tail] using h
  · next hgt =>
    simp only [not_lt, List.length_append, List.length_cons, List.length_nil] at hgt ⊢
    omega

/-- Dropping down to the last `n` elements ignores a head standing above
them. -/
lemma lastN_cons (a : α) (t : List α) (n : ℕ) (h : n ≤ t.length) :
    lastN n (a :: t) = lastN n t := by
  simp only [lastN, List.length_cons]
  rw [show t.length + 1 - n = (t.length - n) + 1 by omega, List.drop_succ_cons]

/-- Folding buffer steps from a buffer of at most 50 entries keeps exactly the
last 50 of all samples seen, in order. -/
lemma foldl_push50 (vs : List ℚ) :
    ∀ l : List ℚ, l.length ≤ 50 → List.foldl push50 l vs = lastN 50 (l ++ vs) := by
  induction vs with
  | nil =>
    intro l h
    simp only [List.foldl_nil, List.append_nil, lastN]
    rw [show l.length - 50 = 0 by omega, List.drop_zero]
  | cons v vs ih =>
    intro l h
    rw [List.foldl_cons, ih (push50 l v) (push50_length_le l v h)]
    have hassoc : l ++ v :: vs = (l ++ [v]) ++ vs := by simp
    by_cases hlen : 50 < (l ++ [v]).length
    · have hl50 : l.length = 50 := by
        simp only [List.length_append, List.length_cons, List.length_nil] at hlen
        omega
      cases l with
      | nil => simp at hl50
      | cons a l' =>
        have hl' : l'.length = 49 := by simpa using hl50
        have hp : push50 (a :: l') v = l' ++ [v] := by
          simp only [push50]
          rw [if_pos hlen]
          simp
        rw [hp, hassoc]
        rw [show (a :: l' ++ [v]) ++ vs = a :: ((l' ++ [v]) ++ vs) by simp,
          lastN_cons]
        simp only [List.length_append, List.length_cons, List.length_nil, hl']
        omega
    · have hp : push50 l v = l ++ [v] := by simp only [push50]; rw [if_neg hlen]
      rw [hp, hassoc]

/-- **C8.** (1) A recording whose position is at distance ≥ 50 from the
closest control point leaves all buffers unchanged.  (2) Recording 51 samples
at a position within the 50-unit locality of a control point, starting from
an empty buffer, leaves exactly the most recent 50 samples in order. -/
theorem c8_rolling_buffer :
    (∀ (p0 : ℚ) (rest : List ℚ) (bufs : List (List ℚ)) (x v : ℚ),
      ¬ (findClosest x p0 rest).2 < 50 →
      recordVelocityBufs (p0 :: rest) bufs x v = bufs) ∧
    (∀ p0 x : ℚ, |p0 - x| < 50 → ∀ vs : List ℚ, vs.length = 51 →
      List.foldl (fun bufs v => recordVelocityBufs [p0] bufs x v) [[]] vs =
        [vs.drop 1]) := by
  constructor
  · intro p0 rest bufs x v h
    simp only [recordVelocityBufs]
    rw [if_neg h]
  · intro p0 x h vs hlen
    have hstep : ∀ (l : List ℚ) (v : ℚ),
        recordVelocityBufs [p0] [l] x v = [push50 l v] := by
      intro l v
      simp only [recordVelocityBufs, findClosest, findClosestAux]
      rw [if_pos h]
      rfl
    have hfold : ∀ (ws : List ℚ) (l : List ℚ),
        List.foldl (fun bufs v => recordVelocityBufs [p0] bufs x v) [l] ws =
          [List.foldl push50 l ws] := by
      intro ws
      induction ws with
      | nil => intro l; rfl
      | cons w ws ihw => intro l; rw [List.foldl_cons, hstep, ihw, List.foldl_cons]
    rw [hfold, foldl_push50 vs [] (by norm_num)]
    simp only [List.nil_append, lastN, hlen]

/-- **C8 witness.** A sample at distance 100 from the only control point is
dropped; 51 equal samples recorded at the control point leave the most recent
50. -/
theorem c8_rolling_buffer_witness :
    recordVelocityBufs [0] [[]] 100 7 = [[]] ∧
    List.foldl (fun bufs v => recordVelocityBufs [0] bufs 0 v) [[]]
        (List.replicate 51 (3 : ℚ)) = [(List.replicate 51 (3 : ℚ)).drop 1] :=
  ⟨c8_rolling_buffer.1 0 [] [[]] 100 7
      (by simp only [findClosest, findClosestAux]; norm_num),
    c8_rolling_buffer.2 0 0 (by norm_num) (List.replicate 51 3) (by simp)⟩

/-! ## Claims about shock tracking -/

/-- **C2 counterexample.** At canvas width 1000 the grouping distance is 20
pixels; positions 9 and 18 are 9 < 10 apart (within half the grouping
distance) yet land in buckets 0 and 20. -/
theorem c2_counterexample :
    |(9 : ℚ) - 18| ≤ SHOCK_DISTANCE 1000 / 2 ∧
      bucketKey (SHOCK_DISTANCE 1000) 9 ≠ bucketKey (SHOCK_DISTANCE 1000) 18 := by
  constructor
  · rw [show (9 : ℚ) - 18 = -9 by norm_num, abs_neg, abs_of_nonneg (by norm_num)]
    norm_num [SHOCK_DISTANCE, metersToPixels, PHYSICAL_WIDTH_METERS]
  · have hD : SHOCK_DISTANCE 1000 = 20 := by
      norm_num [SHOCK_DISTANCE, metersToPixels, PHYSICAL_WIDTH_METERS]
    rw [hD]
    have h9 : bucketKey 20 9 = 0 := by
      rw [bucketKey, show (9 : ℚ) / 20 = 0.45 by norm_num, round_eq]
      norm_num [Int.floor_eq_iff]
    have h18 : bucketKey 20 18 = 20 := by
      rw [bucketKey, show (18 : ℚ) / 20 = 0.9 by norm_num, round_eq]
      norm_num [Int.floor_eq_iff]
    rw [h9, h18]
    norm_num

/-- Half-up rounding moves by at most one step across points at most `1/2`
apart. -/
lemma round_le_round_add_one (a b : ℚ) (h : |a - b| ≤ 1 / 2) :
    round b ≤ round a + 1 := by
  have hb : b ≤ a + 1 / 2 := by
    rw [abs_sub_le_iff] at h
    linarith [h.2]
  calc round b = ⌊b + 1 / 2⌋ := round_eq b
    _ ≤ ⌊a + 1 / 2 + 1 / 2⌋ := Int.floor_le_floor (by linarith)
    _ = ⌊a⌋ + 1 := by rw [show a + 1 / 2 + 1 / 2 = a + 1 by ring, Int.floor_add_one]
    _ ≤ round a + 1 := by
        have : ⌊a⌋ ≤ ⌊a + 1 / 2⌋ := Int.floor_le_floor (by linarith)
        rw [round_eq]
        omega

/-- **C2 (amended).** Two downstream positions at most half the grouping
distance apart map to the same bucket key or to adjacent ones: the keys
differ by at most the grouping distance. -/
theorem c2_bucket_keys_adjacent (D p q : ℚ) (hD : 0 < D)
    (h : |p - q| ≤ D / 2) :
    |bucketKey D p - bucketKey D q| ≤ D := by
  have hpq : |p / D - q / D| ≤ 1 / 2 := by
    rw [div_sub_div_same, abs_div, abs_of_pos hD, div_le_iff₀ hD]
    linarith
  have h1 : round (q / D) ≤ round (p / D) + 1 := round_le_round_add_one _ _ hpq
  have h2 : round (p / D) ≤ round (q / D) + 1 :=
    round_le_round_add_one _ _ (by rwa [abs_sub_comm])
  have h3 : |(round (p / D) : ℚ) - (round (q / D) : ℚ)| ≤ 1 := by
    have : |round (p / D) - round (q / D)| ≤ (1 : ℤ) := by
      rw [abs_le]
      omega
    calc |(round (p / D) : ℚ) - (round (q / D) : ℚ)|
        = ((|round (p / D) - round (q / D)| : ℤ) : ℚ) := by push_cast; rfl
      _ ≤ ((1 : ℤ) : ℚ) := by exact_mod_cast this
      _ = 1 := by norm_num
  calc |bucketKey D p - bucketKey D q|
      = |(round (p / D) : ℚ) - (round (q / D) : ℚ)| * D := by
        rw [bucketKey, bucketKey, ← sub_mul, abs_mul, abs_of_pos hD]
    _ ≤ 1 * D := mul_le_mul_of_nonneg_right h3 hD.le
    _ = D := one_mul D

/-- **C2 witness.** At grouping distance 20, positions 9 and 18 land in
buckets at distance exactly 20 = D. -/
theorem c2_bucket_keys_adjacent_witness :
    |bucketKey 20 9 - bucketKey 20 18| ≤ 20 :=
  c2_bucket_keys_adjacent 20 9 18 (by norm_num)
    (by rw [show (9 : ℚ) - 18 = -9 by norm_num, abs_neg,
          abs_of_nonneg (by norm_num)]
        norm_num)

/-- **C1 counterexample.** A surviving bucket with one supersonic-entry and
two subsonic-entry events: the subsonic direction is dominant, yet the marker
is colored supersonic-entry (the code tests only
`superCount >= SHOCK_THRESHOLD`, never dominance). -/
theorem c1_counterexample :
    bucketSurvives 0 [SEvent.mk 1 0, SEvent.mk (-1) 0, SEvent.mk (-1) 0] = true ∧
    superCount [SEvent.mk 1 0, SEvent.mk (-1) 0, SEvent.mk (-1) 0] <
      subCount [SEvent.mk 1 0, SEvent.mk (-1) 0, SEvent.mk (-1) 0] ∧
    markerColor [SEvent.mk 1 0, SEvent.mk (-1) 0, SEvent.mk (-1) 0] =
      ShockColor.supersonicEntry ∧
    dominantColor [SEvent.mk 1 0, SEvent.mk (-1) 0, SEvent.mk (-1) 0] =
      ShockColor.subsonicEntry := by
  refine ⟨?_, ?_, ?_, ?_⟩
  · norm_num [bucketSurvives, SHOCK_LIFETIME]
  · decide
  · decide
  · decide

/-- **C1 (amended).** For every surviving bucket queried for markers, the
color is supersonic-entry if and only if the bucket holds at least
`SHOCK_THRESHOLD` (= 1) supersonic-entry events, regardless of which
direction is dominant; otherwise it is subsonic-entry. -/
theorem c1_marker_color (now : ℚ) (ts : List SEvent)
    (hs : bucketSurvives now ts = true) :
    (markerColor ts = ShockColor.supersonicEntry ↔
      SHOCK_THRESHOLD ≤ superCount ts) ∧
    (markerColor ts = ShockColor.subsonicEntry ↔
      superCount ts < SHOCK_THRESHOLD) := by
  by_cases h : SHOCK_THRESHOLD ≤ superCount ts
  · simp [markerColor, h]
  · simp [markerColor, h]
    omega

/-- **C1 witness.** A surviving single-event supersonic bucket. -/
theorem c1_marker_color_witness :
    (markerColor [SEvent.mk 1 0] = ShockColor.supersonicEntry ↔
      SHOCK_THRESHOLD ≤ superCount [SEvent.mk 1 0]) ∧
    (markerColor [SEvent.mk 1 0] = ShockColor.subsonicEntry ↔
      superCount [SEvent.mk 1 0] < SHOCK_THRESHOLD) :=
  c1_marker_color 0 [SEvent.mk 1 0] (by norm_num [bucketSurvives, SHOCK_LIFETIME])

/-- **C6 counterexample.** An event inserted at `T = 0` whose bucket receives
a second event at `t = 200`: queried at `now = 350 ≥ T + 300`, the bucket
survives the prune pass (its newest event is 150 ms old), the old event is
still present in the bucket the marker query reads, and it alone makes the
marker supersonic-colored — the claim as stated is false. -/
theorem c6_counterexample :
    (0 : ℚ) + SHOCK_LIFETIME ≤ 350 ∧
    insertEvent 200 (-1) (insertEvent 0 1 []) =
      [SEvent.mk 1 0, SEvent.mk (-1) 200] ∧
    SEvent.mk 1 0 ∈ insertEvent 200 (-1) (insertEvent 0 1 []) ∧
    bucketSurvives 350 (insertEvent 200 (-1) (insertEvent 0 1 [])) = true ∧
    pruneExpired 350 [((0 : ℚ), insertEvent 200 (-1) (insertEvent 0 1 []))] =
      [((0 : ℚ), insertEvent 200 (-1) (insertEvent 0 1 []))] ∧
    markerColor (insertEvent 200 (-1) (insertEvent 0 1 [])) =
      ShockColor.supersonicEntry := by
  have h0 : insertEvent 0 1 [] = [SEvent.mk 1 0] := by
    norm_num [insertEvent, lastN, SHOCK_LIFETIME, SHOCK_WINDOW, List.filter_cons]
  have h1 : insertEvent 200 (-1) (insertEvent 0 1 []) =
      [SEvent.mk 1 0, SEvent.mk (-1) 200] := by
    rw [h0]
    norm_num [insertEvent, lastN, SHOCK_LIFETIME, SHOCK_WINDOW, List.filter_cons]
  refine ⟨by norm_num [SHOCK_LIFETIME], h1, ?_, ?_, ?_, ?_⟩ <;> rw [h1]
  · simp
  · norm_num [bucketSurvives, SHOCK_LIFETIME, List.getLast?]
  · norm_num [pruneExpired, bucketSurvives, SHOCK_LIFETIME, List.filter_cons,
      List.getLast?]
  · decide

/-- A nonempty bucket whose newest event is at least `SHOCK_LIFETIME` old
fails the survival test. -/
lemma bucketSurvives_eq_false_of (now : ℚ) (ts : List SEvent) (hne : ts ≠ [])
    (h : SHOCK_LIFETIME ≤ now - (ts.getLast hne).timestamp) :
    bucketSurvives now ts = false := by
  simp only [bucketSurvives, List.getLast?_eq_getLast_of_ne_nil hne,
    decide_eq_false_iff_not, not_lt]
  exact h

/-- **C6 (amended).** An event inserted at time `T` into a bucket all of
whose previous events are no newer than `T` (so the inserted event is and
stays the newest): at every time `now ≥ T + 300` the bucket fails the
survival test, hence the prune pass that precedes each marker query deletes
it from any bucket map and it produces no marker.  (If instead newer events
arrive before expiry, the bucket survives and older events remain present
and counted — see the counterexample.) -/
theorem c6_bucket_expiry (T now : ℚ) (ty : ℤ) (ts0 : List SEvent) (k : ℚ)
    (m : List (ℚ × List SEvent))
    (hold : ∀ e ∈ ts0, e.timestamp ≤ T) (hnow : T + SHOCK_LIFETIME ≤ now) :
    bucketSurvives now (insertEvent T ty ts0) = false ∧
    (k, insertEvent T ty ts0) ∉ pruneExpired now m := by
  have hmemf : SEvent.mk ty T ∈
      (ts0 ++ [SEvent.mk ty T]).filter
        (fun t => T - t.timestamp < SHOCK_LIFETIME) :=
    List.mem_filter.mpr ⟨by simp,
      by simp only [decide_eq_true_eq, sub_self, SHOCK_LIFETIME]; norm_num⟩
  have hne : insertEvent T ty ts0 ≠ [] := by
    have hflen :
        0 < ((ts0 ++ [SEvent.mk ty T]).filter
          (fun t => T - t.timestamp < SHOCK_LIFETIME)).length :=
      List.length_pos.mpr (List.ne_nil_of_mem hmemf)
    simp only [insertEvent, lastN, SHOCK_WINDOW, ← List.length_pos,
      List.length_drop]
    omega
  have hall : ∀ e ∈ insertEvent T ty ts0, e.timestamp ≤ T := by
    intro e he
    simp only [insertEvent, lastN] at he
    have he2 := List.mem_of_mem_filter (List.mem_of_mem_drop he)
    rcases List.mem_append.mp he2 with h | h
    · exact hold e h
    · simp only [List.mem_singleton] at h
      rw [h]
  have hsurv : bucketSurvives now (insertEvent T ty ts0) = false := by
    refine bucketSurvives_eq_false_of now _ hne ?_
    have := hall _ (List.getLast_mem hne)
    linarith
  refine ⟨hsurv, fun hmem => ?_⟩
  have hkeep := (List.mem_filter.mp hmem).2
  rw [hsurv] at hkeep
  exact Bool.false_ne_true hkeep

/-- **C6 witness.** A lone event inserted at `T = 0` into an empty bucket: at
`now = 300` the bucket fails the survival test and is removed by the prune
pass from the singleton bucket map. -/
theorem c6_bucket_expiry_witness :
    bucketSurvives 300 (insertEvent 0 1 []) = false ∧
    ((5 : ℚ), insertEvent 0 1 []) ∉
      pruneExpired 300 [((5 : ℚ), insertEvent 0 1 [])] :=
  c6_bucket_expiry 0 300 1 [] 5 [((5 : ℚ), insertEvent 0 1 [])]
    (by simp) (by norm_num [SHOCK_LIFETIME])

/-! ## Claim about particle state -/

/-- **C9.** The normalized lateral coordinate assigned at spawn is never
modified afterwards: a full per-tick `update` (including its velocity,
color, wall-buffer and shock-map effects) returns a particle with the same
`normalizedY`, and `reset` of an existing particle keeps it as well (the
`hasOwnProperty` guard only draws a fresh random value for a particle that
does not yet own the field). -/
theorem c9_normalizedY_immutable (env : Env) (top bottom : Wall) (now : ℚ)
    (shock : List (ℚ × List SEvent)) (p : Particle) (rSize rOp : ℚ) :
    (Particle.update env top bottom now shock p).1.normalizedY =
      p.normalizedY ∧
    (Particle.reset env rSize rOp p).normalizedY = p.normalizedY :=
  ⟨rfl, rfl⟩
